import Mathlib

/-!
Verification of the crash-report table (`osquery/tables/system/darwin/crashes.cpp`):
a shallow embedding of `readCrashDump` and `genCrashLogs` together with theorems
about the parser's behaviour on crash-report text.

Machine strings are modelled as Lean `String`s; the C++ `Row`
(`std::map<std::string, std::string>`) is an association list with
overwrite-or-insert assignment; out-of-bounds vector indexing, dereferencing the
end iterator of the line sequence, and `boost::format` argument-feed exceptions
are made explicit as `CrashErr` results of the otherwise-total parse function.
-/

namespace CrashesTable

/-- A query result row, modelling the C++ `Row` (`std::map<std::string, std::string>`):
an association list of (column, value) pairs with distinct keys. -/
abbrev Row := List (String × String)

/-- `r[k] = v` on a `std::map`: overwrite the existing entry for `k`, or append a
fresh one. -/
def rowSet (r : Row) (k v : String) : Row :=
  if r.any (fun p => p.1 = k) then
    r.map (fun p => if p.1 = k then (k, v) else p)
  else
    r ++ [(k, v)]

/-- Number of entries of a row carrying the column name `k`. -/
def countKey (r : Row) (k : String) : Nat :=
  (r.filter (fun p => p.1 = k)).length

/-- Split a character list at every occurrence of the delimiter (the splitting
step of `boost::split` with a one-character `is_any_of`). -/
def splitChars (delim : Char) : List Char → List (List Char)
  | [] => [[]]
  | c :: rest =>
    if c = delim then
      [] :: splitChars delim rest
    else
      match splitChars delim rest with
      | [] => [[c]]
      | t :: ts => (c :: t) :: ts

/-- Strip whitespace from both ends (`boost::trim`). -/
def trimChars (cs : List Char) : List Char :=
  ((cs.dropWhile Char.isWhitespace).reverse.dropWhile Char.isWhitespace).reverse

/-- Modelled from the spec: osquery's string `split(s, delim)` utility
(declared in osquery/core/conversions.h, whose source is not part of this
repository snapshot). The parser "tokenize[s] by splitting on the colon
character", a line may "yield zero tokens", and a well-formed header line
`"<RecognizedKey>: <value>"` must give the field `<value>` exactly: so split on
the delimiter character, drop the tokens that are empty, and trim surrounding
whitespace from each remaining token. -/
def osplit (s : String) (delim : Char) : List String :=
  ((splitChars delim s.toList).filter (fun t => t ≠ [])).map
    (fun t => String.mk (trimChars t))

/-- The `kCrashDumpKeys` table: recognized first tokens and the column each is
stored under. -/
def kCrashDumpKeys : List (String × String) :=
  [("Process", "pid"),
   ("Path", "path"),
   ("Log Location", "crash_path"),
   ("Identifier", "identifier"),
   ("Version", "version"),
   ("Parent Process", "parent"),
   ("Responsible", "responsible"),
   ("User ID", "uid"),
   ("Date/Time", "datetime"),
   ("Crashed Thread", "crashed_thread"),
   ("Exception Type", "exception_type"),
   ("Exception Codes", "exception_codes"),
   ("Exception Note", "exception_notes"),
   ("rax", "rax"),
   ("rdi", "rdi"),
   ("Triggered by Thread", "crashed_thread"),
   ("x0", "x0"),
   ("x4", "x4")]

/-- `kCrashDumpKeys.at(k)`: the column name for a recognized key (only reached
after the `count` guard, so the default is irrelevant). -/
def crashKeyName (k : String) : String :=
  (List.lookup k kCrashDumpKeys).getD k

/-- The ways the C++ parse loop can go wrong on its own: undefined behaviour
from indexing a `std::vector` past its size or dereferencing the end iterator,
and exceptions thrown by `boost::format` when fed the wrong number of
arguments. -/
inductive CrashErr
  /-- `*(++it)` where `it` already points at the last line. -/
  | derefEnd
  /-- `toks[i]` with `i ≥ toks.size()`. -/
  | indexOOB
  /-- `boost::format % arg` on a fully-fed format that has not been dumped. -/
  | tooManyArgs
  /-- `boost::format::str()` before all placeholders are fed. -/
  | tooFewArgs
deriving DecidableEq, Repr

/-- State of `boost::format crashed_thread_format("Thread %1% Crashed")`: the
single `%1%` argument fed so far, and boost's `dumped_` flag, which is set by
`str()` and makes the next feed clear the format for reuse. -/
structure FmtState where
  arg : Option String
  dumped : Bool
deriving DecidableEq, Repr

/-- The text produced by `crashed_thread_format.str()`: requires the
placeholder to be fed. -/
def fmtStrText : Option String → Except CrashErr String
  | some label => .ok ("Thread " ++ label ++ " Crashed")
  | none => .error .tooFewArgs

/-- The side effect of `crashed_thread_format.str()` on the format object:
`str()` sets `dumped_` (the bound argument is kept), so a later feed starts
the format over instead of throwing. -/
def markDumped (f : FmtState) : FmtState := ⟨f.arg, true⟩

/-- The format state after one iteration's marker comparison: `str()` is
evaluated — and dumps the format — exactly when `crashed_thread_seen` is
true. -/
def strEffect (seen : Bool) (fmt : FmtState) : FmtState :=
  if seen then markDumped fmt else fmt

/-- `crashed_thread_format % arg`: a dumped format is first cleared
(`feed_impl` begins with `if (self.dumped_) self.clear();`) and then re-fed;
feeding a fully-fed format that was never dumped throws
`boost::io::too_many_args`. -/
def formatFeed : FmtState → String → Except CrashErr FmtState
  | ⟨_, true⟩, s => .ok ⟨some s, false⟩
  | ⟨none, false⟩, s => .ok ⟨some s, false⟩
  | ⟨some _, false⟩, _ => .error .tooManyArgs

/-- Try to read `[<digits>]` starting exactly at the head of the character
list; on success return the digit run (the brackets already stripped, as the
C++ `substr(1, size - 2)` does). -/
def bracketNumAt : List Char → Option (List Char)
  | '[' :: rest =>
    match rest.takeWhile Char.isDigit, rest.drop (rest.takeWhile Char.isDigit).length with
    | _ :: _, ']' :: _ => some (rest.takeWhile Char.isDigit)
    | _, _ => none
  | _ => none

/-- Leftmost-match search, over the characters of the line. -/
def findBracketNumAux : List Char → Option (List Char)
  | [] => none
  | c :: rest =>
    match bracketNumAt (c :: rest) with
    | some ds => some ds
    | none => findBracketNumAux rest

/-- `boost::regex_search(line, results, boost::regex{"\\[\\d+\\]"})` followed by
stripping the surrounding brackets: the leftmost bracketed run of decimal
digits of the line, if any. -/
def findBracketNum (line : String) : Option String :=
  (findBracketNumAux line.toList).map (fun ds => String.mk ds)

/-- `boost::algorithm::replace_all` on character lists: a single left-to-right
pass replacing non-overlapping occurrences of `pat`; replaced text is not
rescanned. The `fuel` argument only makes the recursion structural: every step
consumes at least one input character, so starting the fuel at the input length
never exhausts it. -/
def replaceAllAux (pat rep : List Char) : Nat → List Char → List Char
  | 0, cs => cs
  | _ + 1, [] => []
  | fuel + 1, c :: rest =>
    if pat ≠ [] ∧ pat.isPrefixOf (c :: rest) then
      rep ++ replaceAllAux pat rep fuel (rest.drop (pat.length - 1))
    else
      c :: replaceAllAux pat rep fuel rest

/-- `boost::algorithm::replace_all(s, pat, rep)`. -/
def boostReplaceAll (s pat rep : String) : String :=
  String.mk (replaceAllAux pat.toList rep.toList s.toList.length s.toList)

/-- The register-dump normalization applied to the two concatenated register
lines: `replace_all(reg_str, ": ", ":")` then `replace_all(reg_str, "   ", " ")`. -/
def normalizeRegisters (s : String) : String :=
  boostReplaceAll (boostReplaceAll s ": " ":") "   " " "

/-- The parse loop of `readCrashDump`, over the (already split) line sequence.
`seen` is `crashed_thread_seen`, `fmt` the state of `crashed_thread_format`.
Each unchecked C++ access appears as an explicit check returning `CrashErr`.
Evaluating `crashed_thread_format.str()` in the marker comparison mutates the
format (it sets `dumped_`), so the state it returns is threaded through the
rest of the iteration. -/
def parseLines : List String → Row → Bool → FmtState → Except CrashErr Row
  | [], r, _, _ => .ok r
  | line :: rest, r, seen, fmt =>
    match osplit line ':' with
    | [] => parseLines rest r seen fmt
    | t0 :: ttail =>
      -- crashed_thread_seen && toks[0] == crashed_thread_format.str():
      -- str() is only evaluated when crashed_thread_seen short-circuits true,
      -- and evaluating it dumps the format, so the rest of the iteration sees
      -- the updated state strEffect seen fmt.
      match (if seen then (fmtStrText fmt.arg).map (fun m => t0 == m)
             else .ok false) with
      | .error e => .error e
      | .ok true =>
        -- r["stack_trace"] = *(++it); crashed_thread_seen = false; continue;
        match rest with
        | [] => .error .derefEnd
        | trace :: rest2 =>
          parseLines rest2 (rowSet r "stack_trace" trace) false (strEffect seen fmt)
      | .ok false =>
        if (List.lookup t0 kCrashDumpKeys).isNone then
          parseLines rest r seen (strEffect seen fmt)
        else if t0 = "rax" ∨ t0 = "x0" then
          -- reg_str = *it + " " + *(++it), then the two replace_all passes
          match rest with
          | [] => .error .derefEnd
          | next :: rest2 =>
            parseLines rest2
              (rowSet r "registers" (normalizeRegisters (line ++ " " ++ next)))
              seen (strEffect seen fmt)
        else if t0 = "Date/Time" ∧ 2 ≤ ttail.length then
          -- toks.size() >= 3; reads toks[1], toks[2] and toks[3]
          match ttail with
          | t1 :: t2 :: t3 :: _ =>
            parseLines rest (rowSet r "datetime" (t1 ++ ":" ++ t2 ++ ":" ++ t3))
              seen (strEffect seen fmt)
          | _ => .error .indexOOB
        else if t0 = "Crashed Thread" ∨ t0 = "Triggered by Thread" then
          match ttail with
          | [] => .error .indexOOB -- split(toks[1], " ") with toks.size() == 1
          | t1 :: _ =>
            match osplit t1 ' ' with
            | [] => parseLines rest r seen (strEffect seen fmt)
            | s0 :: _ =>
              -- The C++ assigns r[kCrashDumpKeys.at(toks[0])] = t[0] and then
              -- feeds the format; were the feed ever to throw, the row would
              -- be discarded with the whole query, so checking the feed first
              -- is observationally the same.
              match formatFeed (strEffect seen fmt) s0 with
              | .error e => .error e
              | .ok fed =>
                parseLines rest (rowSet r (crashKeyName t0) s0) true fed
        else if t0 = "Process" ∨ t0 = "Parent Process" then
          match findBracketNum line with
          | some pid => parseLines rest (rowSet r (crashKeyName t0) pid) seen (strEffect seen fmt)
          | none => parseLines rest r seen (strEffect seen fmt)
        else if t0 = "User ID" then
          match ttail with
          | [] => .error .indexOOB -- toks[1] with toks.size() == 1
          | t1 :: _ => parseLines rest (rowSet r (crashKeyName t0) t1) seen (strEffect seen fmt)
        else
          -- default: r[kCrashDumpKeys.at(toks[0])] = toks[1]
          match ttail with
          | [] => .error .indexOOB -- toks[1] with toks.size() == 1
          | t1 :: _ => parseLines rest (rowSet r (crashKeyName t0) t1) seen (strEffect seen fmt)

/-- `readCrashDump(app_log, r)`. `content` is the outcome of the external
`readFile` call (`none` when it fails). `crash_path` is set before the read is
attempted; on read failure the function returns with only that addition. -/
def readCrashDump (content : Option String) (app_log : String) (r : Row) :
    Except CrashErr Row :=
  let r := rowSet r "crash_path" app_log
  match content with
  | none => .ok r
  | some c => parseLines (osplit c '\n') r false ⟨none, false⟩

/-- The field stored under column `k` by a completed parse (`none` when the
parse went wrong or the field is absent). -/
def resultField (e : Except CrashErr Row) (k : String) : Option String :=
  match e with
  | .ok r => List.lookup k r
  | .error _ => none

/-- `boost::algorithm::ends_with`. -/
def endsWithStr (s suffix : String) : Bool :=
  suffix.toList.isSuffixOf s.toList

/-- `s.find(pat) != std::string::npos`: `pat` occurs as a contiguous substring
of `s`. -/
def containsSubAux (pat : List Char) : List Char → Bool
  | [] => pat.isPrefixOf []
  | c :: rest => pat.isPrefixOf (c :: rest) || containsSubAux pat rest

/-- Substring containment, the `lf.find("LowBattery") == std::string::npos`
test (negated). -/
def containsSub (s pat : String) : Bool :=
  containsSubAux pat.toList s.toList

/-- The candidate filter of `genCrashLogs`'s `process_crash_logs` lambda:
`alg::ends_with(lf, ".crash") && lf.find("LowBattery") == std::string::npos`. -/
def qualifiesCrashFile (lf : String) : Bool :=
  endsWithStr lf ".crash" && !(containsSub lf "LowBattery")

/-- Modelled from the spec: the external file-system collaborators — "a
file-listing service and a directory-listing service, each returning a list of
names or signaling 'not found/empty'", and "a raw-content reader returning full
file text or a failure signal". `none` is the failure signal in each case. -/
structure FileSystem where
  listFiles : String → Option (List String)
  listDirs : String → Option (List String)
  readFile : String → Option String

/-- Modelled from the spec: the inputs the query layer supplies — "a uid filter
predicate ... exposing 'does this filter exist, and if so does it match a given
value'" and the user-enumeration service "returning records with at least a
`directory` attribute per OS user account" (here, the home directory of each
enumerated user). -/
structure QueryContext where
  uidFilter : Option (String → Bool)
  users : List String

/-- `context.constraints["uid"].notExistsOrMatches(v)`. -/
def notExistsOrMatches (f : Option (String → Bool)) (v : String) : Bool :=
  match f with
  | none => true
  | some p => p v

/-- `/Library/Logs/DiagnosticReports`. -/
def kDiagnosticReportsPath : String := "/Library/Logs/DiagnosticReports"

/-- `/Library/Logs/CrashReporter/MobileDevice`. -/
def kMobileDiagnosticReportsPath : String := "/Library/Logs/CrashReporter/MobileDevice"

/-- The loop body of the `process_crash_logs` lambda over the listed files:
qualifying files get a fresh row `{type: ty}`, then `readCrashDump` runs on
them and the row is appended; a parse exception propagates (aborting the
query), matching the absence of any `try/catch` in the C++. -/
def processFiles (fs : FileSystem) (ty : String) : List String → Except CrashErr (List Row)
  | [] => .ok []
  | lf :: rest =>
    if qualifiesCrashFile lf then
      match readCrashDump (fs.readFile lf) lf [("type", ty)] with
      | .error e => .error e
      | .ok r =>
        match processFiles fs ty rest with
        | .error e => .error e
        | .ok rows => .ok (r :: rows)
    else
      processFiles fs ty rest

/-- The `process_crash_logs` lambda of `genCrashLogs`: list the directory
(failure contributes nothing), then parse every qualifying file. -/
def process_crash_logs (fs : FileSystem) (path ty : String) : Except CrashErr (List Row) :=
  match fs.listFiles path with
  | none => .ok []
  | some files => processFiles fs ty files

/-- The (directory, type) pairs `genCrashLogs` passes to `process_crash_logs`,
in order: the system-wide report directory when the uid filter is absent or
matches "0", then for every enumerated user the user's report directory
followed by each immediate subdirectory of the user's mobile-device root. The
per-user paths are `fs::path(home) / <constant>`; the constants begin with a
separator, so the join is plain concatenation. -/
def scanTargets (ctx : QueryContext) (fs : FileSystem) : List (String × String) :=
  (if notExistsOrMatches ctx.uidFilter "0" then
    [(kDiagnosticReportsPath, "application")]
  else []) ++
  ctx.users.flatMap (fun home =>
    (home ++ kDiagnosticReportsPath, "application") ::
      (match fs.listDirs (home ++ kMobileDiagnosticReportsPath) with
       | none => []
       | some mobilePaths => mobilePaths.map (fun d => (d, "mobile"))))

/-- Run `process_crash_logs` over each scan target, accumulating the rows in
order. -/
def runTargets (fs : FileSystem) : List (String × String) → Except CrashErr (List Row)
  | [] => .ok []
  | (path, ty) :: rest =>
    match process_crash_logs fs path ty with
    | .error e => .error e
    | .ok rows =>
      match runTargets fs rest with
      | .error e => .error e
      | .ok more => .ok (rows ++ more)

/-- `genCrashLogs(context)`: the full table generation. -/
def genCrashLogs (ctx : QueryContext) (fs : FileSystem) : Except CrashErr (List Row) :=
  runTargets fs (scanTargets ctx fs)

/-- A file system whose every directory lists exactly one file and whose reads
all fail. -/
def fsSingleFile (lf : String) : FileSystem :=
  ⟨fun _ => some [lf], fun _ => none, fun _ => none⟩

/-- A query context with a uid filter that matches only `"1"` and a single
enumerated user. -/
def ctx7 : QueryContext :=
  ⟨some (fun v => v == "1"), ["/Users/alice"]⟩

/-- A file system with one mobile-device subdirectory everywhere and failing
file listings and reads. -/
def fs7 : FileSystem :=
  ⟨fun _ => none, fun _ => some ["/phone1"], fun _ => none⟩

/-- A file system listing two files in every directory, all unreadable. -/
def fs8 : FileSystem :=
  ⟨fun _ => some ["/d/a.crash", "/d/b.txt"], fun _ => none, fun _ => none⟩

/-- A query context with no uid filter and no users. -/
def ctx9 : QueryContext := ⟨none, []⟩

/-- A file system whose one listed crash file contains a `Log Location` header
naming a different path. -/
def fs9 : FileSystem :=
  ⟨fun _ => some ["/d/a.crash"], fun _ => none,
   fun _ => some "Log Location: /elsewhere"⟩

/-- A file system whose one listed crash file is unreadable. -/
def fs9w : FileSystem :=
  ⟨fun _ => some ["/d/a.crash"], fun _ => none, fun _ => none⟩

/-!  Theorems. -/

/-- C1: the claim says the parse pass completes normally on every input,
in particular on a trailing register line, a trailing matched crashed-thread
marker, a `Date/Time` line of exactly three colon-tokens and a repeated
crashed-thread header. On the first three of those inputs the code instead
commits undefined behaviour: a register line or a matched marker as the last
line dereferences the end iterator, and a three-token `Date/Time` line
indexes `toks[3]` past the vector's end. (Only the repeated-header case is
harmless: the marker comparison's `str()` call dumps the format, so the second
feed clears and re-feeds it, and the parse completes with the second thread
number — the fourth conjunct.) -/
theorem C1_parse_goes_wrong_on_edge_inputs :
    readCrashDump (some "rax: 0x1") "/tmp/a.crash" [("type", "application")]
      = .error .derefEnd
    ∧ readCrashDump (some "Crashed Thread: 3\nThread 3 Crashed") "/tmp/a.crash"
        [("type", "application")] = .error .derefEnd
    ∧ readCrashDump (some "Date/Time: 10:15") "/tmp/a.crash"
        [("type", "application")] = .error .indexOOB
    ∧ readCrashDump (some "Crashed Thread: 3\nCrashed Thread: 4") "/tmp/a.crash"
        [("type", "application")]
      = .ok [("type", "application"), ("crash_path", "/tmp/a.crash"),
             ("crashed_thread", "4")] :=
  ⟨rfl, rfl, rfl, rfl⟩

/-- C2 (counterexample): on the claim's own input the stored `datetime` is not
`"10:15:30"`. -/
theorem C2_counterexample_datetime_value :
    resultField (readCrashDump (some "Date/Time: 2015-01-01 10:15:30.000 -0800")
      "/tmp/a.crash" [("type", "application")]) "datetime" ≠ some "10:15:30" := by
  decide

/-- C2 (amended): the parser stores `toks[1] ++ ":" ++ toks[2] ++ ":" ++ toks[3]`
of the colon-tokenization of the `Date/Time` line, which for the claim's input
is the full reconstructed timestamp `"2015-01-01 10:15:30.000 -0800"`. -/
theorem C2_datetime_reconstruction :
    resultField (readCrashDump (some "Date/Time: 2015-01-01 10:15:30.000 -0800")
        "/tmp/a.crash" [("type", "application")]) "datetime"
      = some ((osplit "Date/Time: 2015-01-01 10:15:30.000 -0800" ':').getD 1 "" ++ ":"
          ++ (osplit "Date/Time: 2015-01-01 10:15:30.000 -0800" ':').getD 2 "" ++ ":"
          ++ (osplit "Date/Time: 2015-01-01 10:15:30.000 -0800" ':').getD 3 "")
    ∧ resultField (readCrashDump (some "Date/Time: 2015-01-01 10:15:30.000 -0800")
        "/tmp/a.crash" [("type", "application")]) "datetime"
      = some "2015-01-01 10:15:30.000 -0800" :=
  ⟨rfl, rfl⟩

/-- C3: the claim says a recognized-key line lacking its expected further tokens
leaves the field unset and parsing continues. In fact a recognized key with no
second colon-token makes the code index `toks[1]` past the end of the token
vector (both on the default path and on the crashed-thread-header path);
only a header whose second token is whitespace-only is skipped gracefully. -/
theorem C3_missing_token_goes_wrong :
    readCrashDump (some "Identifier") "/tmp/a.crash" [("type", "application")]
      = .error .indexOOB
    ∧ readCrashDump (some "Crashed Thread") "/tmp/a.crash" [("type", "application")]
      = .error .indexOOB
    ∧ readCrashDump (some "Crashed Thread: :3\nVersion: 1.0") "/tmp/a.crash"
        [("type", "application")]
      = .ok [("type", "application"), ("crash_path", "/tmp/a.crash"), ("version", "1.0")] :=
  ⟨rfl, rfl, rfl⟩

/-- C4: on a report with a `Crashed Thread` header, the matching
`Thread 3 Crashed:` marker and a following trace line, `crashed_thread` is
`"3"` and `stack_trace` is the trace line verbatim; and the captured trace line
is consumed — when it is itself a recognizable header (`Identifier: X`) it is
stored only as the stack trace, never parsed as a header, while the line after
it is parsed normally. -/
theorem C4_deferred_stack_trace_capture :
    readCrashDump
      (some ("Crashed Thread:        3 Dispatch queue: com.apple.main-thread\n"
        ++ "Thread 3 Crashed:\n0   libsystem  0x00000001 foo + 10"))
      "/tmp/a.crash" [("type", "application")]
      = .ok [("type", "application"), ("crash_path", "/tmp/a.crash"),
             ("crashed_thread", "3"),
             ("stack_trace", "0   libsystem  0x00000001 foo + 10")]
    ∧ readCrashDump
      (some ("Crashed Thread:        3 Dispatch queue: com.apple.main-thread\n"
        ++ "Thread 3 Crashed:\nIdentifier: X\nVersion: 7"))
      "/tmp/a.crash" [("type", "application")]
      = .ok [("type", "application"), ("crash_path", "/tmp/a.crash"),
             ("crashed_thread", "3"), ("stack_trace", "Identifier: X"),
             ("version", "7")] :=
  ⟨rfl, rfl⟩

/-- C10: when several lines set the same field, the last line's value
overwrites the earlier ones — a second `Process` line wins for `pid`, a second
`Triggered by Thread` header wins for `crashed_thread` (the marker
comparison's `str()` call dumps the format, so the second feed clears and
re-feeds it rather than throwing), a later `rax` register pair wins over an
earlier `x0` pair for `registers`, and a second `Identifier` line wins for
`identifier`. -/
theorem C10_last_line_wins :
    resultField (readCrashDump (some "Process: A [1]\nProcess: B [2]")
      "/tmp/a.crash" [("type", "application")]) "pid" = some "2"
    ∧ resultField (readCrashDump (some "Triggered by Thread: 1\nTriggered by Thread: 2")
        "/tmp/a.crash" [("type", "application")]) "crashed_thread" = some "2"
    ∧ resultField (readCrashDump (some "x0: 1\nx1: 2\nrax: 3\nrdx: 4")
        "/tmp/a.crash" [("type", "application")]) "registers" = some "rax:3 rdx:4"
    ∧ resultField (readCrashDump (some "Identifier: A\nIdentifier: B")
        "/tmp/a.crash" [("type", "application")]) "identifier" = some "B" :=
  ⟨rfl, rfl, rfl, rfl⟩

/-- C6: a listed file contributes a row exactly when its name ends with
`.crash` and does not contain `LowBattery`; in particular
`LowBattery-2020.crash` and `report.txt` contribute none. -/
theorem C6_crash_file_filter (dir lf : String) :
    process_crash_logs (fsSingleFile lf) dir "application"
      = .ok (if endsWithStr lf ".crash" && !(containsSub lf "LowBattery")
             then [[("type", "application"), ("crash_path", lf)]] else [])
    ∧ process_crash_logs (fsSingleFile "LowBattery-2020.crash") dir "application" = .ok []
    ∧ process_crash_logs (fsSingleFile "report.txt") dir "application" = .ok [] := by
  refine ⟨?_, rfl, rfl⟩
  show processFiles (fsSingleFile lf) "application" [lf] = _
  by_cases hq : (endsWithStr lf ".crash" && !(containsSub lf "LowBattery")) = true
  · simp only [processFiles, qualifiesCrashFile, hq, if_true, readCrashDump, rowSet]
    rfl
  · rw [Bool.not_eq_true] at hq
    simp only [processFiles, qualifiesCrashFile, hq, if_false, Bool.false_eq_true]

/-- Helper for C5: on a two-line report whose first line's first colon-token is
`rax` or `x0`, the loop takes the register-dump branch, consuming both lines. -/
theorem parse_two_register_lines (l1 l2 : String) (r : Row) (tt : List String)
    (h : osplit l1 ':' = "rax" :: tt ∨ osplit l1 ':' = "x0" :: tt) :
    parseLines [l1, l2] r false ⟨none, false⟩
      = .ok (rowSet r "registers" (normalizeRegisters (l1 ++ " " ++ l2))) := by
  rcases h with h | h <;> simp [parseLines, h, kCrashDumpKeys, List.lookup]

/-- C5 (counterexample): two register lines whose first has two spaces after
the colon yield a `registers` value that still contains `": "` — the
`replace_all(": ", ":")` pass is single and does not rescan, so `":  "`
collapses to `": "`. -/
theorem C5_counterexample_colon_space_survives :
    resultField (readCrashDump (some "rax:  0x1\nrdi: 0x2") "/tmp/a.crash"
      [("type", "application")]) "registers" = some "rax: 0x1 rdi:0x2"
    ∧ containsSub "rax: 0x1 rdi:0x2" ": " = true :=
  ⟨rfl, rfl⟩

/-- C5 (amended): for a two-line report whose first line's first colon-token is
`rax` or `x0`, the `registers` field is the two lines concatenated with a
single space and then passed through the two single-pass replacements
(`": "` by `":"`, then three spaces by one); the result is not in general free
of `": "` or of triple spaces. -/
theorem C5_registers_two_line_report (content l1 l2 path ty : String)
    (tt : List String)
    (hlines : osplit content '\n' = [l1, l2])
    (htoks : osplit l1 ':' = "rax" :: tt ∨ osplit l1 ':' = "x0" :: tt) :
    resultField (readCrashDump (some content) path [("type", ty)]) "registers"
      = some (boostReplaceAll (boostReplaceAll (l1 ++ " " ++ l2) ": " ":") "   " " ") := by
  simp only [readCrashDump]
  rw [hlines, parse_two_register_lines l1 l2 _ tt htoks]
  rfl

/-- Witness for C5: the hypotheses hold and the conclusion evaluates on a
concrete two-line desktop register dump. -/
theorem C5_registers_two_line_report_witness :
    osplit "rax: 0x1\nrdi: 0x2" '\n' = ["rax: 0x1", "rdi: 0x2"]
    ∧ (osplit "rax: 0x1" ':' = "rax" :: ["0x1"]
        ∨ osplit "rax: 0x1" ':' = "x0" :: ["0x1"])
    ∧ resultField (readCrashDump (some "rax: 0x1\nrdi: 0x2") "/tmp/b.crash"
        [("type", "application")]) "registers"
      = some (boostReplaceAll (boostReplaceAll ("rax: 0x1" ++ " " ++ "rdi: 0x2")
          ": " ":") "   " " ") :=
  ⟨rfl, Or.inl rfl,
    C5_registers_two_line_report "rax: 0x1\nrdi: 0x2" "rax: 0x1" "rdi: 0x2"
      "/tmp/b.crash" "application" ["0x1"] rfl (Or.inl rfl)⟩

/-- C7: the system-wide report directory is a scan target exactly when the uid
filter is absent or matches `"0"`; every enumerated user's report directory,
and every mobile-device subdirectory found for that user, is a scan target
regardless of the filter. (The hypothesis excludes a user record whose home
directory is the empty string, for which the user path would coincide with the
system path.) -/
theorem C7_scan_scope (ctx : QueryContext) (fs : FileSystem)
    (hu : "" ∉ ctx.users) :
    ((kDiagnosticReportsPath, "application") ∈ scanTargets ctx fs
        ↔ notExistsOrMatches ctx.uidFilter "0" = true)
    ∧ (∀ u ∈ ctx.users, (u ++ kDiagnosticReportsPath, "application") ∈ scanTargets ctx fs)
    ∧ (∀ u ∈ ctx.users,
        ∀ d ∈ (fs.listDirs (u ++ kMobileDiagnosticReportsPath)).getD [],
          (d, "mobile") ∈ scanTargets ctx fs) := by
  refine ⟨⟨?_, ?_⟩, ?_, ?_⟩
  · intro hmem
    unfold scanTargets at hmem
    rcases List.mem_append.1 hmem with hl | hr
    · by_cases hb : notExistsOrMatches ctx.uidFilter "0" = true
      · exact hb
      · rw [Bool.not_eq_true] at hb
        rw [hb] at hl
        simp at hl
    · exfalso
      rcases List.mem_flatMap.1 hr with ⟨u, hu', hmem'⟩
      rcases List.mem_cons.1 hmem' with heq | hmob
      · have h1 : kDiagnosticReportsPath = u ++ kDiagnosticReportsPath :=
          congrArg Prod.fst heq
        have hdata : kDiagnosticReportsPath.data
            = u.data ++ kDiagnosticReportsPath.data := by
          have h2 := congrArg String.data h1
          rwa [String.data_append] at h2
        have hlen := congrArg List.length hdata
        rw [List.length_append] at hlen
        have hnil : u.data = [] := List.length_eq_zero.1 (by omega)
        have : u = "" := String.ext (by simp [hnil])
        exact hu (this ▸ hu')
      · rcases hls : fs.listDirs (u ++ kMobileDiagnosticReportsPath) with _ | ds
        · rw [hls] at hmob
          simp at hmob
        · rw [hls] at hmob
          rcases List.mem_map.1 hmob with ⟨d, _, heq2⟩
          have := congrArg Prod.snd heq2
          simp at this
  · intro hb
    unfold scanTargets
    rw [hb]
    exact List.mem_append.2 (Or.inl (List.mem_singleton.2 rfl))
  · intro u hu'
    unfold scanTargets
    exact List.mem_append.2 (Or.inr (List.mem_flatMap.2
      ⟨u, hu', List.mem_cons_self _ _⟩))
  · intro u hu' d hd
    rcases hls : fs.listDirs (u ++ kMobileDiagnosticReportsPath) with _ | ds
    · rw [hls] at hd
      simp at hd
    · rw [hls] at hd
      simp only [Option.getD_some] at hd
      unfold scanTargets
      refine List.mem_append.2 (Or.inr (List.mem_flatMap.2
        ⟨u, hu', List.mem_cons.2 (Or.inr ?_)⟩))
      rw [hls]
      exact List.mem_map_of_mem _ hd

/-- Witness for C7: the hypothesis holds and the conclusion evaluates for a
context whose uid filter matches only `"1"` and one enumerated user. -/
theorem C7_scan_scope_witness :
    ("" ∉ ctx7.users)
    ∧ (((kDiagnosticReportsPath, "application") ∈ scanTargets ctx7 fs7
          ↔ notExistsOrMatches ctx7.uidFilter "0" = true)
        ∧ (∀ u ∈ ctx7.users,
            (u ++ kDiagnosticReportsPath, "application") ∈ scanTargets ctx7 fs7)
        ∧ (∀ u ∈ ctx7.users,
            ∀ d ∈ (fs7.listDirs (u ++ kMobileDiagnosticReportsPath)).getD [],
              (d, "mobile") ∈ scanTargets ctx7 fs7)) :=
  ⟨by decide, C7_scan_scope ctx7 fs7 (by decide)⟩

/-- C8: when the content reader fails for every listed file, each qualifying
file still contributes a row, with exactly the fields `type` and `crash_path`
(the latter equal to the file path), and the scan runs to completion over the
whole listing. -/
theorem C8_unreadable_file_rows (fs : FileSystem) (dir ty : String)
    (files : List String)
    (hls : fs.listFiles dir = some files)
    (hread : ∀ f ∈ files, fs.readFile f = none) :
    process_crash_logs fs dir ty
      = .ok ((files.filter qualifiesCrashFile).map
          (fun f => [("type", ty), ("crash_path", f)])) := by
  unfold process_crash_logs
  rw [hls]
  show processFiles fs ty files = _
  clear hls
  revert hread
  induction files with
  | nil => intro _; rfl
  | cons f rest ih =>
    intro hread
    have hf : fs.readFile f = none := hread f (List.mem_cons_self _ _)
    have hrest : ∀ g ∈ rest, fs.readFile g = none :=
      fun g hg => hread g (List.mem_cons_of_mem _ hg)
    by_cases hq : qualifiesCrashFile f = true
    · simp only [processFiles, hq, if_true, hf, List.filter_cons, List.map_cons]
      rw [ih hrest]
      rfl
    · rw [Bool.not_eq_true] at hq
      simp only [processFiles, hq, Bool.false_eq_true, if_false, List.filter_cons]
      exact ih hrest

/-- Witness for C8: the hypotheses hold and the conclusion evaluates on a
two-file listing (one qualifying, one not), both unreadable. -/
theorem C8_unreadable_file_rows_witness :
    fs8.listFiles "/d" = some ["/d/a.crash", "/d/b.txt"]
    ∧ (∀ f ∈ ["/d/a.crash", "/d/b.txt"], fs8.readFile f = none)
    ∧ process_crash_logs fs8 "/d" "application"
        = .ok ((["/d/a.crash", "/d/b.txt"].filter qualifiesCrashFile).map
            (fun f => [("type", "application"), ("crash_path", f)])) :=
  ⟨rfl, by decide,
    C8_unreadable_file_rows fs8 "/d" "application" ["/d/a.crash", "/d/b.txt"]
      rfl (by decide)⟩

theorem countKey_cons (p : String × String) (r : Row) (k : String) :
    countKey (p :: r) k = (if p.1 = k then 1 else 0) + countKey r k := by
  by_cases h : p.1 = k <;> simp [countKey, List.filter_cons, h]
  omega

theorem countKey_map_upsert (r : Row) (k v k' : String) :
    countKey (r.map (fun p => if p.1 = k then (k, v) else p)) k' = countKey r k' := by
  induction r with
  | nil => rfl
  | cons p rest ih =>
    simp only [List.map_cons, countKey_cons, ih]
    by_cases h1 : p.1 = k
    · simp [h1]
    · simp [h1]

theorem countKey_append (r s : Row) (k : String) :
    countKey (r ++ s) k = countKey r k + countKey s k := by
  simp [countKey, List.filter_append]

theorem countKey_eq_zero_of_not_any (r : Row) (k : String)
    (h : r.any (fun p => p.1 = k) = false) : countKey r k = 0 := by
  induction r with
  | nil => rfl
  | cons p rest ih =>
    rw [List.any_cons, Bool.or_eq_false_iff] at h
    have h1 : ¬ p.1 = k := of_decide_eq_false h.1
    simp [countKey_cons, h1, ih h.2]

theorem countKey_singleton_ne (k v k' : String) (h : ¬ k = k') :
    countKey [(k, v)] k' = 0 := by
  simp [countKey, h]

theorem countKey_rowSet_of_one (r : Row) (k v k' : String) (h : countKey r k' = 1) :
    countKey (rowSet r k v) k' = 1 := by
  unfold rowSet
  split
  · rw [countKey_map_upsert]; exact h
  · rename_i hany
    rw [Bool.not_eq_true] at hany
    rw [countKey_append]
    by_cases hkk : k = k'
    · exfalso
      rw [hkk] at hany
      rw [countKey_eq_zero_of_not_any r k' hany] at h
      exact absurd h (by decide)
    · rw [countKey_singleton_ne k v k' hkk, h]

theorem lookup_cons (a : String) (p : String × String) (l : List (String × String)) :
    List.lookup a (p :: l) = if a = p.1 then some p.2 else List.lookup a l := by
  rcases p with ⟨x, y⟩
  by_cases h : a = x
  · simp [List.lookup, h]
  · have hb : (a == x) = false := by simp [h]
    simp [List.lookup, hb, h]

theorem lookup_map_upsert_ne (r : Row) (k v k' : String) (h : k' ≠ k) :
    List.lookup k' (r.map (fun p => if p.1 = k then (k, v) else p))
      = List.lookup k' r := by
  induction r with
  | nil => rfl
  | cons p rest ih =>
    simp only [List.map_cons, lookup_cons]
    by_cases h1 : p.1 = k
    · rw [if_pos h1]
      rw [show ((k, v) : String × String).1 = k from rfl, if_neg h,
        if_neg (fun he => h (he.trans h1)), ih]
    · rw [if_neg h1]
      by_cases h2 : k' = p.1
      · rw [if_pos h2, if_pos h2]
      · rw [if_neg h2, if_neg h2, ih]

theorem lookup_append_single_ne (r : Row) (k v k' : String) (h : k' ≠ k) :
    List.lookup k' (r ++ [(k, v)]) = List.lookup k' r := by
  induction r with
  | nil =>
    have hb : (k' == k) = false := by simp [h]
    simp [List.lookup, hb]
  | cons p rest ih =>
    simp only [List.cons_append, lookup_cons, ih]

theorem lookup_rowSet_ne (r : Row) (k v k' : String) (h : k' ≠ k) :
    List.lookup k' (rowSet r k v) = List.lookup k' r := by
  unfold rowSet
  split
  · exact lookup_map_upsert_ne r k v k' h
  · exact lookup_append_single_ne r k v k' h

theorem lookup_mem_values (l : List (String × String)) (a : String) (b : String)
    (h : List.lookup a l = some b) : b ∈ l.map Prod.snd := by
  induction l with
  | nil => cases h
  | cons p rest ih =>
    rcases p with ⟨x, y⟩
    simp only [List.lookup] at h
    cases hax : a == x with
    | true =>
      rw [hax] at h
      cases h
      exact List.mem_cons_self _ _
    | false =>
      rw [hax] at h
      exact List.mem_cons_of_mem _ (ih h)

theorem crashKeyName_ne_type (t : String)
    (h : (List.lookup t kCrashDumpKeys).isNone = false) : crashKeyName t ≠ "type" := by
  rcases hl : List.lookup t kCrashDumpKeys with _ | m
  · rw [hl] at h; cases h
  · have hm : m ∈ kCrashDumpKeys.map Prod.snd := lookup_mem_values _ _ _ hl
    have he : crashKeyName t = m := by simp [crashKeyName, hl]
    rw [he]
    intro hmt
    rw [hmt] at hm
    revert hm
    decide

theorem preserve_step {r r' : Row} {key v : String}
    (ih : (∀ k, countKey (rowSet r key v) k = 1 → countKey r' k = 1)
      ∧ List.lookup "type" r' = List.lookup "type" (rowSet r key v))
    (hk : key ≠ "type") :
    (∀ k, countKey r k = 1 → countKey r' k = 1)
    ∧ List.lookup "type" r' = List.lookup "type" r :=
  ⟨fun k hk1 => ih.1 k (countKey_rowSet_of_one _ _ _ _ hk1),
   ih.2.trans (lookup_rowSet_ne _ _ _ _ (Ne.symm hk))⟩

theorem parseLines_preserves (lines : List String) (r : Row) (seen : Bool)
    (fmtArg : FmtState) :
    ∀ r' : Row, parseLines lines r seen fmtArg = .ok r' →
      (∀ k, countKey r k = 1 → countKey r' k = 1)
      ∧ List.lookup "type" r' = List.lookup "type" r := by
  induction lines, r, seen, fmtArg using parseLines.induct with
  | case1 r sn fa =>
    intro r' h
    simp only [parseLines, Except.ok.injEq] at h
    subst h
    exact ⟨fun k hk => hk, rfl⟩
  | case2 line rest r seen fmtArg hsplit ih =>
    intro r' h
    rcases rest with _ | ⟨nx, rs⟩
    · rw [parseLines.eq_2] at h
      simp [hsplit] at h
      exact ih r' h
    · rw [parseLines.eq_3] at h
      simp [hsplit] at h
      exact ih r' h
  | case3 line rest r seen fmtArg trace rest2 hsplit e hmark =>
    intro r' h
    rcases rest with _ | ⟨nx, rs⟩
    · rw [parseLines.eq_2] at h
      simp [hsplit, hmark] at h
    · rw [parseLines.eq_3] at h
      simp [hsplit, hmark] at h
  | case4 line r seen fmtArg trace rest2 hsplit hmark =>
    intro r' h
    rw [parseLines.eq_2] at h
    simp [hsplit, hmark] at h
  | case5 line r seen fmtArg trace rest2 hsplit hmark next rest3 ih =>
    intro r' h
    rw [parseLines.eq_3] at h
    simp [hsplit, hmark] at h
    exact preserve_step (ih r' h) (by decide)
  | case6 line rest r seen fmtArg trace rest2 hsplit hmark hnone ih =>
    intro r' h
    rcases rest with _ | ⟨nx, rs⟩
    · rw [parseLines.eq_2] at h
      simp [hsplit, hmark, hnone] at h
      exact ih r' h
    · rw [parseLines.eq_3] at h
      simp [hsplit, hmark, hnone] at h
      exact ih r' h
  | case7 line r seen fmtArg trace rest2 hsplit hmark hnone hrax =>
    intro r' h
    rw [parseLines.eq_2] at h
    simp [hsplit, hmark, hnone, hrax] at h
  | case8 line r seen fmtArg trace rest2 hsplit hmark hnone hrax next rest3 ih =>
    intro r' h
    rw [parseLines.eq_3] at h
    simp [hsplit, hmark, hnone, hrax] at h
    exact preserve_step (ih r' h) (by decide)
  | case9 line rest r seen fmtArg trace hmark hnone hnotrax t1 t2 t3 tail hsplit hdt ih =>
    intro r' h
    obtain ⟨hdt1, hdt2⟩ := hdt
    subst hdt1
    rcases rest with _ | ⟨nx, rs⟩
    · rw [parseLines.eq_2] at h
      simp [hsplit, hmark, hnone] at h
      exact preserve_step (ih r' h) (by decide)
    · rw [parseLines.eq_3] at h
      simp [hsplit, hmark, hnone] at h
      exact preserve_step (ih r' h) (by decide)
  | case10 line rest r seen fmtArg trace rest2 hsplit hmark hnone hnotrax hdt himp =>
    intro r' h
    rcases rest2 with _ | ⟨t1, rest2⟩
    · simp at hdt
    · rcases rest2 with _ | ⟨t2, rest2⟩
      · simp at hdt
      · rcases rest2 with _ | ⟨t3, rest2⟩
        · obtain ⟨hdt1, hdt2⟩ := hdt
          subst hdt1
          rcases rest with _ | ⟨nx, rs⟩
          · rw [parseLines.eq_2] at h
            simp [hsplit, hmark, hnone] at h
          · rw [parseLines.eq_3] at h
            simp [hsplit, hmark, hnone] at h
        · exact (himp t1 t2 t3 rest2 rfl).elim
  | case11 line rest r seen fmtArg trace hmark hnone hnotrax hct hsplit hnotdt =>
    intro r' h
    rcases rest with _ | ⟨nx, rs⟩
    · rw [parseLines.eq_2] at h
      simp [hsplit, hmark, hnone, hnotrax, hct, hnotdt] at h
    · rw [parseLines.eq_3] at h
      simp [hsplit, hmark, hnone, hnotrax, hct, hnotdt] at h
  | case12 line rest r seen fmtArg trace hmark hnone hnotrax hct t1 rest2 hsub hsplit hnotdt ih =>
    intro r' h
    rcases hct with hct1 | hct1 <;> subst hct1 <;> rcases rest with _ | ⟨nx, rs⟩
    · rw [parseLines.eq_2] at h
      simp [hsplit, hmark, hnone, hsub] at h
      exact ih r' h
    · rw [parseLines.eq_3] at h
      simp [hsplit, hmark, hnone, hsub] at h
      exact ih r' h
    · rw [parseLines.eq_2] at h
      simp [hsplit, hmark, hnone, hsub] at h
      exact ih r' h
    · rw [parseLines.eq_3] at h
      simp [hsplit, hmark, hnone, hsub] at h
      exact ih r' h
  | case13 line rest r seen fmtArg trace hmark hnone hnotrax hct t1 rest2 t2 rest21 hsub e hfeed hsplit hnotdt =>
    intro r' h
    rcases hct with hct1 | hct1 <;> subst hct1 <;> rcases rest with _ | ⟨nx, rs⟩ <;>
      first
      | (rw [parseLines.eq_2] at h
         simp [hsplit, hmark, hnone, hsub, hfeed] at h)
      | (rw [parseLines.eq_3] at h
         simp [hsplit, hmark, hnone, hsub, hfeed] at h)
  | case14 line rest r seen fmtArg trace hmark hnone hnotrax hct t1 rest2 t2 rest21 hsub fmtArg2 hfeed hsplit hnotdt ih =>
    intro r' h
    have hne : (List.lookup trace kCrashDumpKeys).isNone = false := by
      rw [← Bool.not_eq_true]
      exact hnone
    rcases hct with hct1 | hct1 <;> subst hct1 <;> rcases rest with _ | ⟨nx, rs⟩ <;>
      first
      | (rw [parseLines.eq_2] at h
         simp [hsplit, hmark, hnone, hsub, hfeed] at h
         exact preserve_step (ih r' h) (crashKeyName_ne_type _ hne))
      | (rw [parseLines.eq_3] at h
         simp [hsplit, hmark, hnone, hsub, hfeed] at h
         exact preserve_step (ih r' h) (crashKeyName_ne_type _ hne))
  | case15 line rest r seen fmtArg trace rest2 hsplit hmark hnone hnotrax hnotdt hnotct hproc label hfind ih =>
    intro r' h
    have hne : (List.lookup trace kCrashDumpKeys).isNone = false := by
      rw [← Bool.not_eq_true]
      exact hnone
    rcases rest with _ | ⟨nx, rs⟩
    · rw [parseLines.eq_2] at h
      simp [hsplit, hmark, hnone, hnotrax, hnotdt, hnotct, hproc, hfind] at h
      exact preserve_step (ih r' h) (crashKeyName_ne_type trace hne)
    · rw [parseLines.eq_3] at h
      simp [hsplit, hmark, hnone, hnotrax, hnotdt, hnotct, hproc, hfind] at h
      exact preserve_step (ih r' h) (crashKeyName_ne_type trace hne)
  | case16 line rest r seen fmtArg trace rest2 hsplit hmark hnone hnotrax hnotdt hnotct hproc hfind ih =>
    intro r' h
    rcases rest with _ | ⟨nx, rs⟩
    · rw [parseLines.eq_2] at h
      simp [hsplit, hmark, hnone, hnotrax, hnotdt, hnotct, hproc, hfind] at h
      exact ih r' h
    · rw [parseLines.eq_3] at h
      simp [hsplit, hmark, hnone, hnotrax, hnotdt, hnotct, hproc, hfind] at h
      exact ih r' h
  | case17 line rest r seen fmtArg hmark hnone hnotrax hnotct hnotproc hsplit hnotdt =>
    intro r' h
    rcases rest with _ | ⟨nx, rs⟩
    · rw [parseLines.eq_2] at h
      simp [hsplit, hmark, hnone, hnotrax, hnotct, hnotproc, hnotdt] at h
    · rw [parseLines.eq_3] at h
      simp [hsplit, hmark, hnone, hnotrax, hnotct, hnotproc, hnotdt] at h
  | case18 line rest r seen fmtArg t1 rest2 hmark hnone hnotrax hnotct hnotproc hsplit hnotdt ih =>
    intro r' h
    rcases rest with _ | ⟨nx, rs⟩
    · rw [parseLines.eq_2] at h
      simp [hsplit, hmark, hnone, hnotrax, hnotct, hnotproc, hnotdt] at h
      exact preserve_step (ih r' h) (by decide)
    · rw [parseLines.eq_3] at h
      simp [hsplit, hmark, hnone, hnotrax, hnotct, hnotproc, hnotdt] at h
      exact preserve_step (ih r' h) (by decide)
  | case19 line rest r seen fmtArg trace hmark hnone hnotrax hnotct hnotproc hnotuid hsplit hnotdt =>
    intro r' h
    rcases rest with _ | ⟨nx, rs⟩
    · rw [parseLines.eq_2] at h
      simp [hsplit, hmark, hnone, hnotrax, hnotct, hnotproc, hnotuid, hnotdt] at h
    · rw [parseLines.eq_3] at h
      simp [hsplit, hmark, hnone, hnotrax, hnotct, hnotproc, hnotuid, hnotdt] at h
  | case20 line rest r seen fmtArg trace hmark hnone hnotrax hnotct hnotproc hnotuid t1 rest2 hsplit hnotdt ih =>
    intro r' h
    have hne : (List.lookup trace kCrashDumpKeys).isNone = false := by
      rw [← Bool.not_eq_true]
      exact hnone
    by_cases hdtq : trace = "Date/Time"
    · subst hdtq
      have hlen : rest2 = [] := by
        rcases rest2 with _ | ⟨a, b⟩
        · rfl
        · exact absurd ⟨rfl, by simp⟩ hnotdt
      subst hlen
      rcases rest with _ | ⟨nx, rs⟩
      · rw [parseLines.eq_2] at h
        simp [hsplit, hmark, hnone, hnotrax, hnotct, hnotproc, hnotuid] at h
        exact preserve_step (ih r' h) (crashKeyName_ne_type _ hne)
      · rw [parseLines.eq_3] at h
        simp [hsplit, hmark, hnone, hnotrax, hnotct, hnotproc, hnotuid] at h
        exact preserve_step (ih r' h) (crashKeyName_ne_type _ hne)
    · rcases rest with _ | ⟨nx, rs⟩
      · rw [parseLines.eq_2] at h
        simp [hsplit, hmark, hnone, hnotrax, hnotct, hnotproc, hnotuid, hdtq] at h
        exact preserve_step (ih r' h) (crashKeyName_ne_type _ hne)
      · rw [parseLines.eq_3] at h
        simp [hsplit, hmark, hnone, hnotrax, hnotct, hnotproc, hnotuid, hdtq] at h
        exact preserve_step (ih r' h) (crashKeyName_ne_type _ hne)

theorem readCrashDump_row_shape (content : Option String) (lf ty : String) (r' : Row)
    (h : readCrashDump content lf [("type", ty)] = .ok r') :
    countKey r' "type" = 1 ∧ List.lookup "type" r' = some ty
      ∧ countKey r' "crash_path" = 1 := by
  simp only [readCrashDump] at h
  cases content with
  | none =>
    simp only [Except.ok.injEq] at h
    subst h
    exact ⟨rfl, rfl, rfl⟩
  | some c =>
    obtain ⟨h1, h2⟩ := parseLines_preserves _ _ _ _ r' h
    refine ⟨h1 "type" rfl, ?_, h1 "crash_path" rfl⟩
    rw [h2]
    rfl

theorem processFiles_row_shape (fs : FileSystem) (ty : String) (files : List String)
    (rows : List Row) (h : processFiles fs ty files = .ok rows) :
    ∀ r ∈ rows, countKey r "type" = 1 ∧ List.lookup "type" r = some ty
      ∧ countKey r "crash_path" = 1 := by
  induction files generalizing rows with
  | nil =>
    simp only [processFiles, Except.ok.injEq] at h
    subst h
    intro r hr
    cases hr
  | cons lf rest ih =>
    by_cases hq : qualifiesCrashFile lf = true
    · simp only [processFiles, hq, if_true] at h
      rcases hrc : readCrashDump (fs.readFile lf) lf [("type", ty)] with e | r0
      · rw [hrc] at h; cases h
      · rw [hrc] at h
        rcases hrest : processFiles fs ty rest with e | rows'
        · rw [hrest] at h; cases h
        · rw [hrest] at h
          simp only [Except.ok.injEq] at h
          subst h
          intro r hr
          rcases List.mem_cons.1 hr with rfl | hr'
          · exact readCrashDump_row_shape _ _ _ _ hrc
          · exact ih rows' hrest r hr'
    · rw [Bool.not_eq_true] at hq
      simp only [processFiles, hq, Bool.false_eq_true, if_false] at h
      exact ih rows h

theorem process_crash_logs_row_shape (fs : FileSystem) (path ty : String)
    (rows : List Row) (h : process_crash_logs fs path ty = .ok rows) :
    ∀ r ∈ rows, countKey r "type" = 1 ∧ List.lookup "type" r = some ty
      ∧ countKey r "crash_path" = 1 := by
  unfold process_crash_logs at h
  rcases hls : fs.listFiles path with _ | files
  · rw [hls] at h
    simp only [Except.ok.injEq] at h
    subst h
    intro r hr
    cases hr
  · rw [hls] at h
    exact processFiles_row_shape fs ty files rows h

theorem runTargets_row_shape (fs : FileSystem) (targets : List (String × String))
    (rows : List Row)
    (hty : ∀ pt ∈ targets, pt.2 = "application" ∨ pt.2 = "mobile")
    (h : runTargets fs targets = .ok rows) :
    ∀ r ∈ rows, countKey r "type" = 1
      ∧ (List.lookup "type" r = some "application" ∨ List.lookup "type" r = some "mobile")
      ∧ countKey r "crash_path" = 1 := by
  induction targets generalizing rows with
  | nil =>
    simp only [runTargets, Except.ok.injEq] at h
    subst h
    intro r hr
    cases hr
  | cons pt rest ih =>
    rcases pt with ⟨path, ty⟩
    rcases h1 : process_crash_logs fs path ty with e | rows1
    · simp only [runTargets] at h
      rw [h1] at h
      cases h
    · simp only [runTargets] at h
      rw [h1] at h
      rcases h2 : runTargets fs rest with e | rows2
      · rw [h2] at h; cases h
      · rw [h2] at h
        simp only [Except.ok.injEq] at h
        subst h
        intro r hr
        rcases List.mem_append.1 hr with hr1 | hr2
        · have hsh := process_crash_logs_row_shape fs path ty rows1 h1 r hr1
          have hta := hty (path, ty) (List.mem_cons_self _ _)
          refine ⟨hsh.1, ?_, hsh.2.2⟩
          rcases hta with hta | hta
          · exact Or.inl (hta ▸ hsh.2.1)
          · exact Or.inr (hta ▸ hsh.2.1)
        · exact ih rows2 (fun pt hpt => hty pt (List.mem_cons_of_mem _ hpt)) h2 r hr2

theorem scanTargets_types (ctx : QueryContext) (fs : FileSystem) :
    ∀ pt ∈ scanTargets ctx fs, pt.2 = "application" ∨ pt.2 = "mobile" := by
  intro pt hpt
  unfold scanTargets at hpt
  rcases List.mem_append.1 hpt with hl | hr
  · left
    by_cases hb : notExistsOrMatches ctx.uidFilter "0" = true
    · rw [if_pos hb] at hl
      rw [List.mem_singleton.1 hl]
    · rw [if_neg hb] at hl
      cases hl
  · rcases List.mem_flatMap.1 hr with ⟨u, hu, hmem⟩
    rcases List.mem_cons.1 hmem with rfl | hmob
    · left; rfl
    · right
      rcases hls : fs.listDirs (u ++ kMobileDiagnosticReportsPath) with _ | ds
      · rw [hls] at hmob; cases hmob
      · rw [hls] at hmob
        rcases List.mem_map.1 hmob with ⟨d, _, rfl⟩
        rfl

/-- C9 (amended): every row of a successfully produced result set has exactly
one `type` entry, whose value is `application` or `mobile` according to the
scan target it came from, and exactly one `crash_path` entry. -/
theorem C9_row_shape (ctx : QueryContext) (fs : FileSystem) (rows : List Row)
    (h : genCrashLogs ctx fs = .ok rows) :
    ∀ r ∈ rows, countKey r "type" = 1
      ∧ (List.lookup "type" r = some "application" ∨ List.lookup "type" r = some "mobile")
      ∧ countKey r "crash_path" = 1 :=
  runTargets_row_shape fs (scanTargets ctx fs) rows (scanTargets_types ctx fs) h

/-- C9 (counterexample): a report whose content is a `Log Location` header
line overwrites `crash_path`, so the produced row's `crash_path` is not the
source file path `/d/a.crash`. -/
theorem C9_counterexample_log_location_overwrites :
    genCrashLogs ctx9 fs9
      = .ok [[("type", "application"), ("crash_path", "/elsewhere")]]
    ∧ ("/elsewhere" : String) ≠ "/d/a.crash" :=
  ⟨rfl, by decide⟩

/-- Witness for C9: the hypothesis holds and the conclusion evaluates on a
one-file scan whose read fails. -/
theorem C9_row_shape_witness :
    genCrashLogs ctx9 fs9w
      = .ok [[("type", "application"), ("crash_path", "/d/a.crash")]]
    ∧ (∀ r ∈ [[("type", "application"), ("crash_path", "/d/a.crash")]],
        countKey r "type" = 1
        ∧ (List.lookup "type" r = some "application"
            ∨ List.lookup "type" r = some "mobile")
        ∧ countKey r "crash_path" = 1) :=
  ⟨rfl, C9_row_shape ctx9 fs9w _ rfl⟩

end CrashesTable
